import Mathlib

/-!
Shallow embedding of the `ora` driver's core (src/stmt.go and the LOB
adapter file) for checking the specification's claims about argument
binding, batch-shape inference, LOB streaming and row fetching.

Machine-level details that no claim touches (the raw C pointers, the
bytes stored inside native buffers beyond what the setters decide,
actual network I/O) are represented by opaque identifiers (Nat) or by
explicit environment records describing the native library's response
to each call, so that every function here is executable.
-/

set_option maxRecDepth 100000

namespace Ora

/-- A `Lob` argument value: the clob/blob flag and whether its embedded
reader is non-nil (`v == nil || L.Reader == nil` marks the slot null). -/
structure LobArg where
  isClob : Bool
  hasReader : Bool
deriving DecidableEq, Repr

/-- Dynamic Go values that can appear in `driver.NamedValue.Value`, as
dispatched by the type switch of `bindVars`.  A Go string is modelled as
its list of Unicode code points (Go `len` on a string counts UTF-8
bytes, computed below by `goStrLen`).  `vByte` is the `uint8` produced
by `reflect.Value.Index` on a byte sequence; `vOut` is `sql.Out`,
`vPtr` one level of pointer indirection, `vOther` any unsupported
dynamic type (carrying its type name). -/
inductive Value where
  | vInt (n : Int)
  | vInt32 (n : Int)
  | vInt64 (n : Int)
  | vUint (n : Nat)
  | vUint64 (n : Nat)
  | vFloat32 (bits : Nat)
  | vFloat64 (bits : Nat)
  | vBool (b : Bool)
  | vByte (b : Nat)
  | vBytes (bs : List Nat)
  | vString (cs : List Nat)
  | vTime (t : Nat)
  | vLob (l : LobArg)
  | vIntSlice (xs : List Int)
  | vInt32Slice (xs : List Int)
  | vInt64Slice (xs : List Int)
  | vUintSlice (xs : List Nat)
  | vUint64Slice (xs : List Nat)
  | vFloat32Slice (xs : List Nat)
  | vFloat64Slice (xs : List Nat)
  | vBoolSlice (xs : List Bool)
  | vBytesSlice (xs : List (List Nat))
  | vStringSlice (xs : List (List Nat))
  | vTimeSlice (xs : List Nat)
  | vLobSlice (xs : List LobArg)
  | vOut (dest : Value)
  | vPtr (v : Value)
  | vOther (tyName : String)
deriving DecidableEq, Repr

/-- One `driver.NamedValue`. -/
structure NamedValue where
  name : String
  ordinal : Nat
  value : Value
deriving DecidableEq, Repr

/-- UTF-8 encoding of one Unicode code point (what Go stores for one
rune of a string). -/
def utf8EncodeChar (c : Nat) : List Nat :=
  if c < 0x80 then [c]
  else if c < 0x800 then
    [0xC0 ||| (c >>> 6), 0x80 ||| (c &&& 0x3F)]
  else if c < 0x10000 then
    [0xE0 ||| (c >>> 12), 0x80 ||| ((c >>> 6) &&& 0x3F), 0x80 ||| (c &&& 0x3F)]
  else
    [0xF0 ||| (c >>> 18), 0x80 ||| ((c >>> 12) &&& 0x3F),
     0x80 ||| ((c >>> 6) &&& 0x3F), 0x80 ||| (c &&& 0x3F)]

/-- The bytes of a Go string holding the given code points. -/
def utf8Bytes (cs : List Nat) : List Nat :=
  (cs.map utf8EncodeChar).flatten

/-- Go `len` of a string: the number of its UTF-8 bytes, not of its
characters. -/
def goStrLen (cs : List Nat) : Nat :=
  (utf8Bytes cs).length

/-- `_, isByteSlice := a.Value.([]byte)` in the batch-shape scan. -/
def reflectIsByteSlice : Value → Bool
  | .vBytes _ => true
  | _ => false

/-- `reflect.ValueOf(a.Value).Kind() == reflect.Slice` together with the
slice's length.  Byte sequences are slices for reflection even though
the scan skips them first. -/
def reflectSliceLen : Value → Option Nat
  | .vBytes bs => some bs.length
  | .vIntSlice xs => some xs.length
  | .vInt32Slice xs => some xs.length
  | .vInt64Slice xs => some xs.length
  | .vUintSlice xs => some xs.length
  | .vUint64Slice xs => some xs.length
  | .vFloat32Slice xs => some xs.length
  | .vFloat64Slice xs => some xs.length
  | .vBoolSlice xs => some xs.length
  | .vBytesSlice xs => some xs.length
  | .vStringSlice xs => some xs.length
  | .vTimeSlice xs => some xs.length
  | .vLobSlice xs => some xs.length
  | _ => none

/-- One step of the min/max accumulation of `bindVars` (both
accumulators start at `-1`, meaning "no slice seen yet"). -/
def lenStep (mm : Int × Int) (n : Nat) : Int × Int :=
  (if mm.1 = -1 ∨ (n : Int) < mm.1 then (n : Int) else mm.1,
   if mm.2 = -1 ∨ (n : Int) > mm.2 then (n : Int) else mm.2)

/-- The body of the batch-shape scan loop for one argument. -/
def scanStep (mm : Int × Int) (v : Value) : Int × Int :=
  if reflectIsByteSlice v then mm
  else
    match reflectSliceLen v with
    | none => mm
    | some n => lenStep mm n

/-- `minArrLen, maxArrLen` as computed by the scan loop of `bindVars`. -/
def scanLens (args : List NamedValue) : Int × Int :=
  args.foldl (fun mm a => scanStep mm a.value) (-1, -1)

/-- The lengths of the slice-valued arguments that take part in
batch-shape inference (byte sequences excluded). -/
def sliceLens (args : List NamedValue) : List Nat :=
  args.filterMap fun a =>
    if reflectIsByteSlice a.value then none else reflectSliceLen a.value

/-- `const maxArraySize = 1 << 10`. -/
def maxArraySize : Nat := 1 <<< 10

/-- Oracle type numbers used by the bind dispatch. -/
inductive OracleType where
  | number | varchar | raw | blob | clob | boolean | timestampTZ
deriving DecidableEq, Repr

/-- Native representation type numbers used by the bind dispatch. -/
inductive NativeType where
  | int64 | uint64 | float | double | bytes | boolean | timestamp | lob
deriving DecidableEq, Repr

/-- Which `dataSetter` a dispatch arm chose. -/
inductive SetterId where
  | number | bytesSet | boolSet | timeSet | lobSet
deriving DecidableEq, Repr

/-- The result of one arm of the bind type switch. -/
structure Disp where
  typ : OracleType
  natTyp : NativeType
  bufSize : Nat
  set : SetterId
deriving DecidableEq, Repr

/-- `len(v) > 0 && v[0].IsClob` for `[]Lob`. -/
def sliceHeadIsClob : List LobArg → Bool
  | [] => false
  | l :: _ => l.isClob

/-- A value stored into one slot of a native variable buffer by a
setter. -/
inductive SlotVal where
  | vnull
  | int64 (n : Int)
  | uint64 (n : Nat)
  | flt (bits : Nat)
  | dbl (bits : Nat)
  | boolv (b : Bool)
  | bytes (bs : List Nat) (n : Nat)
  | timestamp (t : Nat)
  | lobRef (isClob : Bool)
deriving DecidableEq, Repr

/-- Errors produced by the setters (including the run-time panics a Go
type assertion or an index into an empty slice would raise). -/
inductive SetErr where
  | unknownNumber (v : Value)
  | awaitedBytes (v : Value)
  | assertBool (v : Value)
  | assertTime (v : Value)
  | assertLob (v : Value)
  | emptyIndexPanic
deriving DecidableEq, Repr

/-- Errors returned by `bindVars`. -/
inductive BindError where
  | sizeLimit (maxLen : Int) (bound : Nat)
  | shapeMismatch (minLen maxLen : Int)
  | unknownType (argNo : Nat) (v : Value)
  | setFailed (i j : Nat) (e : SetErr)
  | indexPanic (i j : Nat)
deriving DecidableEq, Repr

/-- The type switch of `bindVars` on the (already unwrapped) value of
argument `i`: yields oracle type, native type, buffer byte capacity and
setter, or the unknown-type dispatch error naming the 1-based argument
number. -/
def dispatch (i : Nat) (v : Value) : Except BindError Disp :=
  match v with
  | .vLob l => .ok ⟨if l.isClob then .clob else .blob, .lob, 0, .lobSet⟩
  | .vLobSlice ls =>
      .ok ⟨if sliceHeadIsClob ls then .clob else .blob, .lob, 0, .lobSet⟩
  | .vInt _ => .ok ⟨.number, .int64, 0, .number⟩
  | .vIntSlice _ => .ok ⟨.number, .int64, 0, .number⟩
  | .vInt32 _ => .ok ⟨.number, .int64, 0, .number⟩
  | .vInt32Slice _ => .ok ⟨.number, .int64, 0, .number⟩
  | .vInt64 _ => .ok ⟨.number, .int64, 0, .number⟩
  | .vInt64Slice _ => .ok ⟨.number, .int64, 0, .number⟩
  | .vUint _ => .ok ⟨.number, .uint64, 0, .number⟩
  | .vUintSlice _ => .ok ⟨.number, .uint64, 0, .number⟩
  | .vUint64 _ => .ok ⟨.number, .uint64, 0, .number⟩
  | .vUint64Slice _ => .ok ⟨.number, .uint64, 0, .number⟩
  | .vFloat32 _ => .ok ⟨.number, .float, 0, .number⟩
  | .vFloat32Slice _ => .ok ⟨.number, .float, 0, .number⟩
  | .vFloat64 _ => .ok ⟨.number, .double, 0, .number⟩
  | .vFloat64Slice _ => .ok ⟨.number, .double, 0, .number⟩
  | .vBool _ => .ok ⟨.boolean, .boolean, 0, .boolSet⟩
  | .vBoolSlice _ => .ok ⟨.boolean, .boolean, 0, .boolSet⟩
  | .vBytes bs => .ok ⟨.raw, .bytes, bs.length, .bytesSet⟩
  | .vBytesSlice xs =>
      .ok ⟨.raw, .bytes,
           xs.foldl (fun b x => if x.length > b then x.length else b) 0,
           .bytesSet⟩
  | .vString cs => .ok ⟨.varchar, .bytes, 4 * goStrLen cs, .bytesSet⟩
  | .vStringSlice xs =>
      .ok ⟨.varchar, .bytes,
           xs.foldl (fun b s => if 4 * goStrLen s > b then 4 * goStrLen s else b) 0,
           .bytesSet⟩
  | .vTime _ => .ok ⟨.timestampTZ, .timestamp, 0, .timeSet⟩
  | .vTimeSlice _ => .ok ⟨.timestampTZ, .timestamp, 0, .timeSet⟩
  | v => .error (.unknownType (i + 1) v)

/-- `dataSetNumber`. -/
def dataSetNumber (v : Value) : Except SetErr SlotVal :=
  match v with
  | .vInt n => .ok (.int64 n)
  | .vInt32 n => .ok (.int64 n)
  | .vInt64 n => .ok (.int64 n)
  | .vUint n => .ok (.uint64 n)
  | .vUint64 n => .ok (.uint64 n)
  | .vFloat32 b => .ok (.flt b)
  | .vFloat64 b => .ok (.dbl b)
  | v => .error (.unknownNumber v)

/-- `dataSetBytes`: stores the bytes; for a string the stored length is
the Go string length (its UTF-8 byte count).  Taking `&x[0]` of an
empty slice panics in Go, modelled as `emptyIndexPanic`. -/
def dataSetBytes (v : Value) : Except SetErr SlotVal :=
  match v with
  | .vBytes [] => .error .emptyIndexPanic
  | .vBytes bs => .ok (.bytes bs bs.length)
  | .vString cs =>
      match utf8Bytes cs with
      | [] => .error .emptyIndexPanic
      | bs => .ok (.bytes bs (goStrLen cs))
  | v => .error (.awaitedBytes v)

/-- The inline bool setter of the bind switch (`v.(bool)` asserts). -/
def boolSetter (v : Value) : Except SetErr SlotVal :=
  match v with
  | .vBool b => .ok (.boolv b)
  | v => .error (.assertBool v)

/-- The inline timestamp setter (`v.(time.Time)` asserts; the
decomposition into calendar fields is kept opaque). -/
def timeSetter (v : Value) : Except SetErr SlotVal :=
  match v with
  | .vTime t => .ok (.timestamp t)
  | v => .error (.assertTime v)

/-- `dataSetLOB` (`v.(Lob)` asserts); the temporary-LOB streaming it
performs is abstracted to the locator reference it attaches, since no
claim depends on its internals; a nil reader marks the slot null. -/
def lobSetter (v : Value) : Except SetErr SlotVal :=
  match v with
  | .vLob l => if l.hasReader then .ok (.lobRef l.isClob) else .ok .vnull
  | v => .error (.assertLob v)

/-- Apply the setter a dispatch arm chose. -/
def applySetter (s : SetterId) (v : Value) : Except SetErr SlotVal :=
  match s with
  | .number => dataSetNumber v
  | .bytesSet => dataSetBytes v
  | .boolSet => boolSetter v
  | .timeSet => timeSetter v
  | .lobSet => lobSetter v

/-- `rArgs[i].Index(j).Interface()`: the j-th element of a slice value
(`none` when the value is not a slice or the index is out of range,
which panics in Go). -/
def indexValue : Value → Nat → Option Value
  | .vIntSlice xs, j => (xs.get? j).map .vInt
  | .vInt32Slice xs, j => (xs.get? j).map .vInt32
  | .vInt64Slice xs, j => (xs.get? j).map .vInt64
  | .vUintSlice xs, j => (xs.get? j).map .vUint
  | .vUint64Slice xs, j => (xs.get? j).map .vUint64
  | .vFloat32Slice xs, j => (xs.get? j).map .vFloat32
  | .vFloat64Slice xs, j => (xs.get? j).map .vFloat64
  | .vBoolSlice xs, j => (xs.get? j).map .vBool
  | .vBytesSlice xs, j => (xs.get? j).map .vBytes
  | .vStringSlice xs, j => (xs.get? j).map .vString
  | .vTimeSlice xs, j => (xs.get? j).map .vTime
  | .vLobSlice xs, j => (xs.get? j).map .vLob
  | .vBytes bs, j => (bs.get? j).map .vByte
  | .vString cs, j => ((utf8Bytes cs).get? j).map .vByte
  | _, _ => none

/-- The `sql.Out` unwrapping of `bindVars`: take `out.Dest` and
dereference one pointer indirection if present.  Other values pass
through unchanged. -/
def unwrapValue (v : Value) : Value :=
  match v with
  | .vOut dest =>
      match dest with
      | .vPtr inner => inner
      | d => d
  | _ => v

/-- One native variable buffer allocation performed by `newVar`.

Modelled from the spec: `newVar` itself is not among the provided
sources; per the spec it allocates a Native Variable Buffer with the
requested oracle type, native type, slot count and byte capacity, and
what every claim needs is only the fact and parameters of the
allocation, recorded here. -/
structure Alloc where
  isPlSQLArrays : Bool
  typ : OracleType
  natTyp : NativeType
  sliceLen : Nat
  bufSize : Nat
deriving DecidableEq, Repr

/-- The mutable statement fields that binding reads and writes. -/
structure StmtState where
  plSQLArrays : Bool
  arrLen : Int
deriving DecidableEq, Repr

/-- Result of a successful `bindVars`: execution mode, per-argument
slot count, the buffers allocated, the slot values written, and the
attach discipline (by 1-based position, or by name with the ordinal
string as fallback). -/
structure BindOutcome where
  doExecMany : Bool
  dataSliceLen : Nat
  allocs : List Alloc
  writes : List (List SlotVal)
  named : Bool
  binds : List (Sum Nat String)
deriving DecidableEq, Repr

/-- One argument of the bind loop: unwrap, dispatch, allocate, then run
the setter once per slot.  In scalar mode the setter receives
`a.Value` - the original, still-wrapped argument value, exactly as the
source does at its `set(dv, 0, &data[0], a.Value)` call.  The error
carries the allocation if one was already performed. -/
def processArg (plArr doMany : Bool) (dsl : Nat) (i : Nat) (a : NamedValue) :
    Except (Option Alloc × BindError) (Alloc × List SlotVal) :=
  match dispatch i (unwrapValue a.value) with
  | .error e => .error (none, e)
  | .ok d =>
    let alloc : Alloc := ⟨plArr, d.typ, d.natTyp, dsl, d.bufSize⟩
    let data0 : List SlotVal := List.replicate dsl SlotVal.vnull
    if doMany then
      match setManyAux d.set a.value i 0 dsl data0 with
      | .error e => .error (some alloc, e)
      | .ok dt => .ok (alloc, dt)
    else
      match applySetter d.set a.value with
      | .error e => .error (some alloc, .setFailed i 0 e)
      | .ok sv => .ok (alloc, data0.set 0 sv)
where
  /-- The inner `for j := 0; j < dataSliceLen; j++` setter loop of
  execute-many binding, iterating over `rArgs[i]` (the original
  argument value). -/
  setManyAux (s : SetterId) (orig : Value) (i : Nat) :
      Nat → Nat → List SlotVal → Except BindError (List SlotVal)
    | _, 0, data => .ok data
    | j, r + 1, data =>
      match indexValue orig j with
      | none => .error (.indexPanic i j)
      | some ej =>
        match applySetter s ej with
        | .error e => .error (.setFailed i j e)
        | .ok sv => setManyAux s orig i (j + 1) r (data.set j sv)

/-- The `for i, a := range args` loop of `bindVars`.  On failure the
error carries every allocation performed before it. -/
def bindLoopAux (plArr doMany : Bool) (dsl : Nat) :
    Nat → List NamedValue →
    Except (List Alloc × BindError) (List (Alloc × List SlotVal))
  | _, [] => .ok []
  | i, a :: rest =>
    match processArg plArr doMany dsl i a with
    | .error (al?, e) => .error (al?.toList, e)
    | .ok pr =>
      match bindLoopAux plArr doMany dsl (i + 1) rest with
      | .error (als, e) => .error (pr.1 :: als, e)
      | .ok prs => .ok (pr :: prs)

/-- `bindVars`: scan the batch shape, enforce the size ceiling and the
equal-length requirement, then allocate and fill one buffer per
argument and record the attach discipline.  Returns the updated
statement state (`st.arrLen` is assigned only once the two shape checks
have passed) together with the outcome or the failure (which carries
the allocations performed before it). -/
def bindVars (st : StmtState) (args : List NamedValue) :
    StmtState × Except (List Alloc × BindError) BindOutcome :=
  if (scanLens args).2 > (maxArraySize : Int) then
    (st, .error ([], .sizeLimit (scanLens args).2 maxArraySize))
  else if st.plSQLArrays = false ∧ (scanLens args).1 ≠ -1 ∧
      (scanLens args).1 ≠ (scanLens args).2 then
    (st, .error ([], .shapeMismatch (scanLens args).1 (scanLens args).2))
  else
    let st' : StmtState := { st with arrLen := (scanLens args).1 }
    let doMany : Bool := !st.plSQLArrays && decide (0 < st'.arrLen)
    let dsl : Nat := if doMany then st'.arrLen.toNat else 1
    match bindLoopAux st.plSQLArrays doMany dsl 0 args with
    | .error (als, e) => (st', .error (als, e))
    | .ok prs =>
      let named := args.any fun a => a.name ≠ ""
      (st', .ok
        { doExecMany := doMany
          dataSliceLen := dsl
          allocs := prs.map (·.1)
          writes := prs.map (·.2)
          named := named
          binds :=
            if named then
              args.map fun a =>
                Sum.inr (if a.name = "" then toString a.ordinal else a.name)
            else
              (List.range args.length).map fun i => Sum.inl (i + 1) })

/-- `ExecContext` / `QueryContext` outcomes: the context's own error
returned up front, a binding failure, or a native execution - recording
whether `dpiStmt_executeMany` (batch) or `dpiStmt_execute` (single) was
issued and with which `arrLen`. -/
inductive ExecReturn where
  | ctxError (e : Nat)
  | bindFailed (allocs : List Alloc) (e : BindError)
  | executed (many : Bool) (arrLen : Int)
deriving DecidableEq, Repr

/-- `ExecContext`: check `ctx.Err()` first, bind, then execute many-or-
single depending on `PlSQLArrays` and the bound `arrLen`.  The caller's
context is modelled by its current error, `none` when live. -/
def execContext (ctxErr : Option Nat) (st : StmtState) (args : List NamedValue) :
    StmtState × ExecReturn :=
  match ctxErr with
  | some e => (st, .ctxError e)
  | none =>
    match bindVars st args with
    | (st', .error (als, e)) => (st', .bindFailed als e)
    | (st', .ok _) =>
      if (!st'.plSQLArrays && decide (0 < st'.arrLen)) = true then
        (st', .executed true st'.arrLen)
      else
        (st', .executed false st'.arrLen)

/-- `QueryContext`: check `ctx.Err()` first, bind, then always issue a
single `dpiStmt_execute`. -/
def queryContext (ctxErr : Option Nat) (st : StmtState) (args : List NamedValue) :
    StmtState × ExecReturn :=
  match ctxErr with
  | some e => (st, .ctxError e)
  | none =>
    match bindVars st args with
    | (st', .error (als, e)) => (st', .bindFailed als e)
    | (st', .ok _) => (st', .executed false st'.arrLen)

/-! ## LOB reader (`dpiLobReader.Read`) -/

/-- The reader's fields: the locator identity and the running 0-based
offset, plus the `finished` flag. -/
structure DpiLobReader where
  lob : Nat
  offset : Nat
  finished : Bool
deriving DecidableEq, Repr

/-- The native library's answer to one `dpiLob_readBytes` call:
success with the byte count stored through `&n`, or `DPI_FAILURE` with
the diagnostic code of `getError` (and the byte count the native layer
left in `n`). -/
inductive NativeReadResp where
  | success (n : Nat)
  | failure (code : Int) (n : Nat)
deriving DecidableEq, Repr

/-- A `dpiLob_readBytes` call as issued: locator, the 1-based offset
argument, and the requested amount. -/
structure ReadCall where
  lob : Nat
  offset1 : Nat
  amount : Nat
deriving DecidableEq, Repr

/-- What `Read` returns to its caller: `(n, nil)`, `(n, io.EOF)`, or an
error wrapping the native failure and naming the locator, the reader's
offset and the requested length `len(p)`. -/
inductive ReadReturn where
  | ok (n : Nat)
  | eof (n : Nat)
  | err (lob : Nat) (offset : Nat) (reqLen : Nat) (code : Int) (n : Nat)
deriving DecidableEq, Repr

/-- `dpiLobReader.Read` on a buffer of length `pLen`: returns the new
reader state, the list of native read calls issued (empty or a
singleton), and the returned value.  A finished reader returns EOF at
once; a zero-length buffer returns `(0, nil)`; otherwise the native
read is issued at `offset+1`, diagnostic code 1403 is turned into EOF
and marks the reader finished, any other failure is surfaced, and a
successful read advances the offset by the bytes read (zero bytes also
meaning EOF, though without marking the reader finished). -/
def dpiLobReaderRead (r : DpiLobReader) (pLen : Nat) (resp : NativeReadResp) :
    DpiLobReader × List ReadCall × ReadReturn :=
  if r.finished then (r, [], .eof 0)
  else if pLen = 0 then (r, [], .ok 0)
  else
    let call : ReadCall := ⟨r.lob, r.offset + 1, pLen⟩
    match resp with
    | .failure code n =>
      if code = 1403 then
        ({ r with finished := true, offset := r.offset + n }, [call], .eof n)
      else
        (r, [call], .err r.lob r.offset pLen code n)
    | .success n =>
      ({ r with offset := r.offset + n }, [call],
       if n = 0 then .eof 0 else .ok n)

/-! ## LOB writer (`dpiLobWriter.Write` / `Close`) -/

/-- The writer's fields: the locator reference (`none` once discarded),
the running 0-based offset, and whether the resource has been opened. -/
structure DpiLobWriter where
  lob : Option Nat
  offset : Nat
  opened : Bool
deriving DecidableEq, Repr

/-- The native library's answers to the calls one `Write` can issue. -/
structure WriteEnv where
  openOk : Bool
  openCode : Int
  writeOk : Bool
  writeCode : Int
  size : Nat
deriving DecidableEq, Repr

/-- Native LOB calls, recorded in issue order. -/
inductive LobOp where
  | openResource (lob : Option Nat)
  | writeBytes (lob : Option Nat) (offset1 : Nat) (len : Nat)
  | closeResource (lob : Option Nat)
  | flushBuffer (lob : Option Nat)
  | getSize (lob : Option Nat)
deriving DecidableEq, Repr

/-- What `Write` returns: the byte count, or one of its error shapes. -/
inductive WriteReturn where
  | ok (n : Nat)
  | openErr (lob : Option Nat) (code : Int)
  | writeErr (lob : Option Nat) (offset : Nat) (len : Nat) (code : Int)
  | sizeMismatch (lob : Option Nat) (size offset : Nat)
deriving DecidableEq, Repr

/-- `const CheckLOBWrite = true`. -/
def CheckLOBWrite : Bool := true

/-- The part of `Write` after the resource is known open: issue the
native write at `offset+1`; on failure discard the locator reference,
close the resource and surface the error; on success advance the
offset and (with `CheckLOBWrite`) compare the locator's reported size
against it. -/
def writeStage (w : DpiLobWriter) (ops0 : List LobOp) (pLen : Nat)
    (env : WriteEnv) : DpiLobWriter × List LobOp × WriteReturn :=
  if env.writeOk = false then
    ({ w with lob := none },
     ops0 ++ [.writeBytes w.lob (w.offset + 1) pLen, .closeResource w.lob],
     .writeErr w.lob w.offset pLen env.writeCode)
  else
    let w' := { w with offset := w.offset + pLen }
    if CheckLOBWrite then
      if env.size ≠ w'.offset then
        (w', ops0 ++ [.writeBytes w.lob (w.offset + 1) pLen, .getSize w.lob],
         .sizeMismatch w.lob env.size w'.offset)
      else
        (w', ops0 ++ [.writeBytes w.lob (w.offset + 1) pLen, .getSize w.lob],
         .ok pLen)
    else
      (w', ops0 ++ [.writeBytes w.lob (w.offset + 1) pLen], .ok pLen)

/-- `dpiLobWriter.Write`: open the resource on first use (a failed open
is surfaced without touching the writer's fields), then run the write
stage. -/
def dpiLobWriterWrite (w : DpiLobWriter) (pLen : Nat) (env : WriteEnv) :
    DpiLobWriter × List LobOp × WriteReturn :=
  if w.opened = false then
    if env.openOk = false then
      (w, [.openResource w.lob], .openErr w.lob env.openCode)
    else
      writeStage { w with opened := true } [.openResource w.lob] pLen env
  else
    writeStage w [] pLen env

/-- What `Close` returns. -/
inductive CloseReturn where
  | ok
  | closeErr (lob : Nat) (code : Int)
deriving DecidableEq, Repr

/-- `dpiLobWriter.Close`: a no-op when the locator reference is gone,
otherwise drop the reference, flush, and close the native resource,
surfacing a close failure. -/
def dpiLobWriterClose (w : DpiLobWriter) (closeOk : Bool) (closeCode : Int) :
    DpiLobWriter × List LobOp × CloseReturn :=
  match w.lob with
  | none => (w, [], .ok)
  | some lob =>
    if closeOk then
      ({ w with lob := none },
       [.flushBuffer (some lob), .closeResource (some lob)], .ok)
    else
      ({ w with lob := none },
       [.flushBuffer (some lob), .closeResource (some lob)],
       .closeErr lob closeCode)

/-! ## Fetch cursor (`rows.Next`) -/

/-- The cursor fields that drive fetching. -/
structure RowsState where
  bufferRowIndex : Nat
  fetched : Nat
  finished : Bool
deriving DecidableEq, Repr

/-- The native library's answer to one `dpiStmt_fetchRows` call: the
buffer row index and fetched count it stores, and whether it signals
more rows, or `DPI_FAILURE` with a diagnostic code. -/
inductive FetchResp where
  | success (bufferRowIndex fetched : Nat) (moreRows : Bool)
  | failure (code : Int)
deriving DecidableEq, Repr

/-- What `Next` returns: a delivered row (the per-column
materialization, which no claim touches, is abstracted into this single
constructor), `io.EOF`, or an error. -/
inductive NextReturn where
  | row
  | eof
  | err (code : Int)
deriving DecidableEq, Repr

/-- `rows.Next`: a finished cursor returns EOF without a native call;
with no buffered rows one native fetch is issued - a failure is
surfaced, zero rows yield EOF and mark the cursor finished exactly when
the native layer signals no more rows; otherwise a buffered row is
delivered and the buffer indices advance.  The middle component records
whether a native fetch call was made. -/
def rowsNext (r : RowsState) (resp : FetchResp) :
    RowsState × Bool × NextReturn :=
  if r.finished then (r, false, .eof)
  else if r.fetched = 0 then
    match resp with
    | .failure code => (r, true, .err code)
    | .success bri fetched moreRows =>
      if fetched = 0 then
        ({ r with bufferRowIndex := bri, fetched := 0,
                  finished := moreRows = false }, true, .eof)
      else
        ({ r with bufferRowIndex := bri + 1, fetched := fetched - 1 },
         true, .row)
  else
    ({ r with bufferRowIndex := r.bufferRowIndex + 1,
              fetched := r.fetched - 1 }, false, .row)

/-! ## Claim-side definitions (worded from the spec, for comparison) -/

/-- Batch length as the claim words it: the minimum slice-argument
length, or 1 when no slice arguments are present. -/
def claimBatchLen (args : List NamedValue) : Nat :=
  match sliceLens args with
  | [] => 1
  | n :: rest => rest.foldl min n

/-- Text buffer capacity as the claim words it: 4 times the maximum
observed character (code point) count across the value(s). -/
def claimTextCapacity (css : List (List Nat)) : Nat :=
  css.foldl (fun b cs => max b (4 * cs.length)) 0

/-! ## Characterization of the batch-shape scan -/

theorem scan_factor (args : List NamedValue) (mm : Int × Int) :
    args.foldl (fun mm a => scanStep mm a.value) mm =
      (sliceLens args).foldl lenStep mm := by
  induction args generalizing mm with
  | nil => simp [sliceLens]
  | cons a rest ih =>
    simp only [List.foldl_cons, sliceLens, List.filterMap_cons] at *
    by_cases hb : reflectIsByteSlice a.value
    · simp only [scanStep, hb, if_true, if_pos]
      exact ih mm
    · cases hl : reflectSliceLen a.value with
      | none =>
        simp only [scanStep, hb, hl, if_neg, if_false, Bool.false_eq_true]
        exact ih mm
      | some n =>
        simp only [scanStep, hb, hl, if_neg, if_false, Bool.false_eq_true]
        exact ih (lenStep mm n)

theorem lenStep_nonneg_eq (mn mx : Int) (n : Nat) (hmn : 0 ≤ mn) (hmx : 0 ≤ mx) :
    lenStep (mn, mx) n = (min mn (n : Int), max mx (n : Int)) := by
  unfold lenStep
  simp only [Prod.mk.injEq]
  constructor
  · split_ifs with h
    · omega
    · omega
  · split_ifs with h
    · omega
    · omega

theorem fold_lenStep_nonneg (l : List Nat) :
    ∀ (mn mx : Int), 0 ≤ mn → 0 ≤ mx →
      l.foldl lenStep (mn, mx) =
        (l.foldl (fun (m : Int) (n : Nat) => min m (n : Int)) mn,
         l.foldl (fun (m : Int) (n : Nat) => max m (n : Int)) mx) := by
  induction l with
  | nil => intro mn mx _ _; simp
  | cons n rest ih =>
    intro mn mx hmn hmx
    simp only [List.foldl_cons]
    rw [lenStep_nonneg_eq mn mx n hmn hmx]
    exact ih _ _ (le_min hmn (Int.natCast_nonneg n))
      (le_trans hmx (le_max_left _ _))

theorem foldlMin_spec (l : List Nat) :
    ∀ (m : Int),
      (l.foldl (fun (acc : Int) (n : Nat) => min acc (n : Int)) m = m ∨
        ∃ n ∈ l, l.foldl (fun (acc : Int) (n : Nat) => min acc (n : Int)) m = (n : Int)) ∧
      l.foldl (fun (acc : Int) (n : Nat) => min acc (n : Int)) m ≤ m ∧
      ∀ n ∈ l, l.foldl (fun (acc : Int) (n : Nat) => min acc (n : Int)) m ≤ (n : Int) := by
  induction l with
  | nil => intro m; simp
  | cons k rest ih =>
    intro m
    simp only [List.foldl_cons]
    obtain ⟨hmem, hle, hall⟩ := ih (min m (k : Int))
    refine ⟨?_, le_trans hle (min_le_left _ _), ?_⟩
    · rcases hmem with h | ⟨n, hn, h⟩
      · by_cases hmk : m ≤ (k : Int)
        · left; rw [h]; exact min_eq_left hmk
        · right; exact ⟨k, by simp, by rw [h]; omega⟩
      · right; exact ⟨n, List.mem_cons_of_mem _ hn, h⟩
    · intro n hn
      rcases List.mem_cons.mp hn with rfl | hn'
      · exact le_trans hle (min_le_right _ _)
      · exact hall n hn'

theorem foldlMax_spec (l : List Nat) :
    ∀ (m : Int),
      (l.foldl (fun (acc : Int) (n : Nat) => max acc (n : Int)) m = m ∨
        ∃ n ∈ l, l.foldl (fun (acc : Int) (n : Nat) => max acc (n : Int)) m = (n : Int)) ∧
      m ≤ l.foldl (fun (acc : Int) (n : Nat) => max acc (n : Int)) m ∧
      ∀ n ∈ l, (n : Int) ≤ l.foldl (fun (acc : Int) (n : Nat) => max acc (n : Int)) m := by
  induction l with
  | nil => intro m; simp
  | cons k rest ih =>
    intro m
    simp only [List.foldl_cons]
    obtain ⟨hmem, hle, hall⟩ := ih (max m (k : Int))
    refine ⟨?_, le_trans (le_max_left _ _) hle, ?_⟩
    · rcases hmem with h | ⟨n, hn, h⟩
      · by_cases hmk : (k : Int) ≤ m
        · left; rw [h]; exact max_eq_left hmk
        · right; exact ⟨k, by simp, by rw [h]; omega⟩
      · right; exact ⟨n, List.mem_cons_of_mem _ hn, h⟩
    · intro n hn
      rcases List.mem_cons.mp hn with rfl | hn'
      · exact le_trans (le_max_right _ _) hle
      · exact hall n hn'

/-- The scan of `bindVars` computes exactly the minimum and the maximum
of the inference-relevant slice lengths (`-1, -1` when there are
none). -/
theorem scanLens_spec (args : List NamedValue) :
    (sliceLens args = [] ∧ scanLens args = (-1, -1)) ∨
    ((∃ a ∈ sliceLens args, (scanLens args).1 = (a : Int)) ∧
     (∀ n ∈ sliceLens args, (scanLens args).1 ≤ (n : Int)) ∧
     (∃ b ∈ sliceLens args, (scanLens args).2 = (b : Int)) ∧
     (∀ n ∈ sliceLens args, (n : Int) ≤ (scanLens args).2)) := by
  have hfac : scanLens args = (sliceLens args).foldl lenStep (-1, -1) :=
    scan_factor args _
  cases hl : sliceLens args with
  | nil =>
    left
    refine ⟨rfl, ?_⟩
    rw [hfac, hl]
    rfl
  | cons k rest =>
    right
    have hstep : lenStep (-1, -1) k = ((k : Int), (k : Int)) := by
      unfold lenStep; simp
    have hrw : scanLens args =
        (rest.foldl (fun (m : Int) (n : Nat) => min m (n : Int)) (k : Int),
         rest.foldl (fun (m : Int) (n : Nat) => max m (n : Int)) (k : Int)) := by
      rw [hfac, hl]
      simp only [List.foldl_cons]
      rw [hstep]
      exact fold_lenStep_nonneg rest _ _ (Int.natCast_nonneg k)
        (Int.natCast_nonneg k)
    obtain ⟨hminmem, hminle, hminall⟩ := foldlMin_spec rest (k : Int)
    obtain ⟨hmaxmem, hmaxle, hmaxall⟩ := foldlMax_spec rest (k : Int)
    refine ⟨?_, ?_, ?_, ?_⟩
    · rcases hminmem with h | ⟨n, hn, h⟩
      · exact ⟨k, by simp, by rw [hrw]; exact h⟩
      · exact ⟨n, List.mem_cons_of_mem _ hn, by rw [hrw]; exact h⟩
    · intro n hn
      rw [hrw]
      rcases List.mem_cons.mp hn with rfl | hn'
      · exact hminle
      · exact hminall n hn'
    · rcases hmaxmem with h | ⟨n, hn, h⟩
      · exact ⟨k, by simp, by rw [hrw]; exact h⟩
      · exact ⟨n, List.mem_cons_of_mem _ hn, by rw [hrw]; exact h⟩
    · intro n hn
      rw [hrw]
      rcases List.mem_cons.mp hn with rfl | hn'
      · exact hmaxle
      · exact hmaxall n hn'

/-! ## Claim C2 -/

/-- C2: whenever some slice argument is longer than the fixed ceiling
`maxArraySize = 1024`, `bindVars` fails with the size-limit error
naming the maximum observed slice length and the ceiling, before any
native variable buffer allocation (the error carries an empty
allocation list and the statement state is untouched) and before the
shape-mismatch check (no equal-length hypothesis is needed and the
opaque-array flag is irrelevant). -/
theorem c2_size_limit_error (st : StmtState) (args : List NamedValue)
    (lb : Nat) (hlb : lb ∈ sliceLens args) (hbig : maxArraySize < lb) :
    ∃ mx : Int,
      bindVars st args = (st, .error ([], .sizeLimit mx maxArraySize)) ∧
      (∃ b ∈ sliceLens args, mx = (b : Int)) ∧
      (∀ n ∈ sliceLens args, (n : Int) ≤ mx) := by
  rcases scanLens_spec args with ⟨hnil, _⟩ | ⟨_, _, hmaxmem, hmaxall⟩
  · rw [hnil] at hlb; cases hlb
  · refine ⟨(scanLens args).2, ?_, hmaxmem, hmaxall⟩
    have hcond : (scanLens args).2 > (maxArraySize : Int) :=
      lt_of_lt_of_le (by exact_mod_cast hbig) (hmaxall lb hlb)
    unfold bindVars
    rw [if_pos hcond]

/-- Witness for C2 at a concrete input: one 3-element and one
1025-element slice argument (their lengths even differ, showing the
size check preempts the shape check). -/
theorem c2_size_limit_error_witness :
    (1025 ∈ sliceLens [⟨"", 1, .vIntSlice [4, 5, 6]⟩,
        ⟨"", 2, .vIntSlice (List.replicate 1025 0)⟩] ∧
      maxArraySize < 1025) ∧
    ∃ mx : Int,
      bindVars ⟨false, -1⟩ [⟨"", 1, .vIntSlice [4, 5, 6]⟩,
          ⟨"", 2, .vIntSlice (List.replicate 1025 0)⟩] =
        (⟨false, -1⟩, .error ([], .sizeLimit mx maxArraySize)) ∧
      (∃ b ∈ sliceLens [⟨"", 1, .vIntSlice [4, 5, 6]⟩,
          ⟨"", 2, .vIntSlice (List.replicate 1025 0)⟩], mx = (b : Int)) ∧
      (∀ n ∈ sliceLens [⟨"", 1, .vIntSlice [4, 5, 6]⟩,
          ⟨"", 2, .vIntSlice (List.replicate 1025 0)⟩], (n : Int) ≤ mx) := by
  have hmem : 1025 ∈ sliceLens [⟨"", 1, .vIntSlice [4, 5, 6]⟩,
      ⟨"", 2, .vIntSlice (List.replicate 1025 0)⟩] := by
    have hlen : sliceLens [⟨"", 1, .vIntSlice [4, 5, 6]⟩,
        ⟨"", 2, .vIntSlice (List.replicate 1025 0)⟩] = [3, 1025] := by rfl
    rw [hlen]
    simp
  have hbig : maxArraySize < 1025 := by decide
  exact ⟨⟨hmem, hbig⟩, c2_size_limit_error _ _ 1025 hmem hbig⟩

/-! ## Claim C1 -/

/-- C1 counterexample: two slice arguments of unequal lengths (1 and
1025) with the opaque-array flag unset do NOT produce the
shape-mismatch error - the size-limit check fires first - refuting the
claim that every such binding set fails with a shape-mismatch error. -/
theorem c1_unequal_lengths_not_always_shape_error :
    (bindVars ⟨false, -1⟩ [⟨"", 1, .vIntSlice [0]⟩,
        ⟨"", 2, .vIntSlice (List.replicate 1025 0)⟩]).2 =
      .error ([], .sizeLimit 1025 maxArraySize) ∧
    ∀ mn mx : Int,
      (bindVars ⟨false, -1⟩ [⟨"", 1, .vIntSlice [0]⟩,
          ⟨"", 2, .vIntSlice (List.replicate 1025 0)⟩]).2 ≠
        .error ([], .shapeMismatch mn mx) := by
  have h : (bindVars ⟨false, -1⟩ [⟨"", 1, .vIntSlice [0]⟩,
      ⟨"", 2, .vIntSlice (List.replicate 1025 0)⟩]).2 =
      .error ([], .sizeLimit 1025 maxArraySize) := by rfl
  refine ⟨h, ?_⟩
  intro mn mx hc
  rw [h] at hc
  simp at hc

/-- C1 (amended with the proviso the counterexample forces: no slice
length may exceed the 1024 ceiling, since the size-limit check runs
first): with the opaque-array flag unset and two slice arguments of
unequal lengths, `bindVars` fails with the shape-mismatch error naming
the minimum and maximum slice lengths observed, and no native variable
buffer is allocated (empty allocation list, statement state
untouched). -/
theorem c1_shape_mismatch_error (st : StmtState) (args : List NamedValue)
    (hflag : st.plSQLArrays = false)
    (la lb : Nat) (hla : la ∈ sliceLens args) (hlb : lb ∈ sliceLens args)
    (hne : la ≠ lb)
    (hceil : ∀ n ∈ sliceLens args, n ≤ maxArraySize) :
    ∃ mn mx : Int,
      bindVars st args = (st, .error ([], .shapeMismatch mn mx)) ∧
      (∃ a ∈ sliceLens args, mn = (a : Int)) ∧
      (∀ n ∈ sliceLens args, mn ≤ (n : Int)) ∧
      (∃ b ∈ sliceLens args, mx = (b : Int)) ∧
      (∀ n ∈ sliceLens args, (n : Int) ≤ mx) := by
  rcases scanLens_spec args with ⟨hnil, _⟩ | hspec
  · rw [hnil] at hla; cases hla
  · obtain ⟨⟨a, ha, hfa⟩, hminall, ⟨b, hb, hfb⟩, hmaxall⟩ := hspec
    refine ⟨(scanLens args).1, (scanLens args).2, ?_, ⟨a, ha, hfa⟩,
      hminall, ⟨b, hb, hfb⟩, hmaxall⟩
    have hnotbig : ¬ (scanLens args).2 > (maxArraySize : Int) := by
      rw [hfb]
      have := hceil b hb
      simp only [not_lt]
      exact_mod_cast this
    have hminne : (scanLens args).1 ≠ -1 := by
      rw [hfa]
      omega
    have hnemm : (scanLens args).1 ≠ (scanLens args).2 := by
      intro heq
      have h1 : (la : Int) = (scanLens args).1 :=
        le_antisymm (heq ▸ hmaxall la hla) (hminall la hla)
      have h2 : (lb : Int) = (scanLens args).1 :=
        le_antisymm (heq ▸ hmaxall lb hlb) (hminall lb hlb)
      exact hne (by exact_mod_cast h1.trans h2.symm)
    unfold bindVars
    rw [if_neg hnotbig, if_pos ⟨hflag, hminne, hnemm⟩]

/-- Witness for C1 at a concrete input: slices of lengths 1 and 2,
flag unset, both under the ceiling. -/
theorem c1_shape_mismatch_error_witness :
    ((⟨false, -1⟩ : StmtState).plSQLArrays = false ∧
      1 ∈ sliceLens [⟨"", 1, .vIntSlice [7]⟩, ⟨"", 2, .vIntSlice [8, 9]⟩] ∧
      2 ∈ sliceLens [⟨"", 1, .vIntSlice [7]⟩, ⟨"", 2, .vIntSlice [8, 9]⟩] ∧
      (1 : Nat) ≠ 2 ∧
      (∀ n ∈ sliceLens [⟨"", 1, .vIntSlice [7]⟩, ⟨"", 2, .vIntSlice [8, 9]⟩],
        n ≤ maxArraySize)) ∧
    ∃ mn mx : Int,
      bindVars ⟨false, -1⟩ [⟨"", 1, .vIntSlice [7]⟩, ⟨"", 2, .vIntSlice [8, 9]⟩] =
        (⟨false, -1⟩, .error ([], .shapeMismatch mn mx)) ∧
      (∃ a ∈ sliceLens [⟨"", 1, .vIntSlice [7]⟩, ⟨"", 2, .vIntSlice [8, 9]⟩],
        mn = (a : Int)) ∧
      (∀ n ∈ sliceLens [⟨"", 1, .vIntSlice [7]⟩, ⟨"", 2, .vIntSlice [8, 9]⟩],
        mn ≤ (n : Int)) ∧
      (∃ b ∈ sliceLens [⟨"", 1, .vIntSlice [7]⟩, ⟨"", 2, .vIntSlice [8, 9]⟩],
        mx = (b : Int)) ∧
      (∀ n ∈ sliceLens [⟨"", 1, .vIntSlice [7]⟩, ⟨"", 2, .vIntSlice [8, 9]⟩],
        (n : Int) ≤ mx) := by
  have h1 : 1 ∈ sliceLens [⟨"", 1, .vIntSlice [7]⟩, ⟨"", 2, .vIntSlice [8, 9]⟩] := by
    decide
  have h2 : 2 ∈ sliceLens [⟨"", 1, .vIntSlice [7]⟩, ⟨"", 2, .vIntSlice [8, 9]⟩] := by
    decide
  have hc : ∀ n ∈ sliceLens [⟨"", 1, .vIntSlice [7]⟩, ⟨"", 2, .vIntSlice [8, 9]⟩],
      n ≤ maxArraySize := by decide
  exact ⟨⟨rfl, h1, h2, by decide, hc⟩,
    c1_shape_mismatch_error _ _ rfl 1 2 h1 h2 (by decide) hc⟩

/-! ## Claim C3 -/

/-- C3 counterexample: a binding set with a single scalar argument and
no slice arguments.  The claim's batch length (`claimBatchLen`) is 1
and the opaque-array flag is unset, so the claim's biconditional
predicts batch (execute-many) mode; the code sets `arrLen = -1` and
executes in scalar mode. -/
theorem c3_no_slices_scalar_mode :
    claimBatchLen [⟨"", 1, .vInt 5⟩] = 1 ∧
    (⟨false, -1⟩ : StmtState).plSQLArrays = false ∧
    bindVars ⟨false, -1⟩ [⟨"", 1, .vInt 5⟩] =
      (⟨false, -1⟩,
       .ok { doExecMany := false
             dataSliceLen := 1
             allocs := [⟨false, .number, .int64, 1, 0⟩]
             writes := [[.int64 5]]
             named := false
             binds := [Sum.inl 1] }) := by
  exact ⟨rfl, rfl, rfl⟩

/-- C3 (amended as the counterexample forces: with no slice arguments
`arrLen` is `-1`, not 1, so batch mode is off for purely scalar sets;
the per-argument slot count is the batch length in batch mode and 1
otherwise): on every successful bind, `arrLen` is the minimum
slice-argument length (`-1` when there is none), batch mode is active
iff the opaque-array flag is unset and `arrLen` is positive - hence a
set whose slice arguments all have length 0 executes in scalar mode -
and the slot count follows the mode. -/
theorem c3_batch_len_and_mode (st : StmtState) (args : List NamedValue)
    (st' : StmtState) (o : BindOutcome)
    (h : bindVars st args = (st', .ok o)) :
    (sliceLens args = [] → st'.arrLen = -1) ∧
    (sliceLens args ≠ [] →
      (∃ a ∈ sliceLens args, st'.arrLen = (a : Int)) ∧
      ∀ n ∈ sliceLens args, st'.arrLen ≤ (n : Int)) ∧
    (o.doExecMany = true ↔ (st.plSQLArrays = false ∧ 0 < st'.arrLen)) ∧
    o.dataSliceLen = (if o.doExecMany then st'.arrLen.toNat else 1) ∧
    st'.plSQLArrays = st.plSQLArrays := by
  unfold bindVars at h
  split at h
  · simp at h
  · split at h
    · simp at h
    · dsimp only at h
      split at h
      · simp at h
      · rw [Prod.mk.injEq] at h
        obtain ⟨hst, hok⟩ := h
        injection hok with ho
        have harr : st'.arrLen = (scanLens args).1 := by rw [← hst]
        have hpl : st'.plSQLArrays = st.plSQLArrays := by rw [← hst]
        have hdo : o.doExecMany = (!st.plSQLArrays && decide (0 < (scanLens args).1)) := by
          rw [← ho]
        have hdsl : o.dataSliceLen =
            (if (!st.plSQLArrays && decide (0 < (scanLens args).1)) = true
             then (scanLens args).1.toNat else 1) := by
          rw [← ho]
        have hiff : (o.doExecMany = true) ↔
            (st.plSQLArrays = false ∧ 0 < (scanLens args).1) := by
          rw [hdo]
          simp [Bool.and_eq_true, Bool.not_eq_true', decide_eq_true_eq]
        refine ⟨?_, ?_, ?_, ?_, hpl⟩
        · intro hnil
          rcases scanLens_spec args with ⟨_, hscan⟩ | ⟨⟨a, ha, _⟩, _⟩
          · rw [harr, hscan]
          · rw [hnil] at ha; cases ha
        · intro hne
          rcases scanLens_spec args with ⟨hnil, _⟩ | ⟨hmem, hall, _⟩
          · exact absurd hnil hne
          · exact ⟨by rw [harr]; exact hmem, fun n hn => by rw [harr]; exact hall n hn⟩
        · rw [harr]
          exact hiff
        · rw [hdsl, harr, hdo]

/-- Witness for C3's amended theorem at a concrete input: two
2-element slices, flag unset, successful execute-many bind. -/
theorem c3_batch_len_and_mode_witness :
    bindVars ⟨false, -1⟩ [⟨"", 1, .vIntSlice [1, 2]⟩] =
      (⟨false, 2⟩,
       .ok { doExecMany := true
             dataSliceLen := 2
             allocs := [⟨false, .number, .int64, 2, 0⟩]
             writes := [[.int64 1, .int64 2]]
             named := false
             binds := [Sum.inl 1] }) ∧
    ((sliceLens [⟨"", 1, .vIntSlice [1, 2]⟩] = [] →
        (⟨false, 2⟩ : StmtState).arrLen = -1) ∧
     (sliceLens [⟨"", 1, .vIntSlice [1, 2]⟩] ≠ [] →
        (∃ a ∈ sliceLens [⟨"", 1, .vIntSlice [1, 2]⟩],
          (⟨false, 2⟩ : StmtState).arrLen = (a : Int)) ∧
        ∀ n ∈ sliceLens [⟨"", 1, .vIntSlice [1, 2]⟩],
          (⟨false, 2⟩ : StmtState).arrLen ≤ (n : Int)) ∧
     (({ doExecMany := true, dataSliceLen := 2,
         allocs := [⟨false, .number, .int64, 2, 0⟩],
         writes := [[.int64 1, .int64 2]], named := false,
         binds := [Sum.inl 1] } : BindOutcome).doExecMany = true ↔
        ((⟨false, -1⟩ : StmtState).plSQLArrays = false ∧
          0 < (⟨false, 2⟩ : StmtState).arrLen)) ∧
     ({ doExecMany := true, dataSliceLen := 2,
        allocs := [⟨false, .number, .int64, 2, 0⟩],
        writes := [[.int64 1, .int64 2]], named := false,
        binds := [Sum.inl 1] } : BindOutcome).dataSliceLen =
       (if ({ doExecMany := true, dataSliceLen := 2,
              allocs := [⟨false, .number, .int64, 2, 0⟩],
              writes := [[.int64 1, .int64 2]], named := false,
              binds := [Sum.inl 1] } : BindOutcome).doExecMany
        then (⟨false, 2⟩ : StmtState).arrLen.toNat else 1) ∧
     (⟨false, 2⟩ : StmtState).plSQLArrays =
       (⟨false, -1⟩ : StmtState).plSQLArrays) := by
  have h : bindVars ⟨false, -1⟩ [⟨"", 1, .vIntSlice [1, 2]⟩] =
      (⟨false, 2⟩,
       .ok { doExecMany := true
             dataSliceLen := 2
             allocs := [⟨false, .number, .int64, 2, 0⟩]
             writes := [[.int64 1, .int64 2]]
             named := false
             binds := [Sum.inl 1] }) := by rfl
  exact ⟨h, c3_batch_len_and_mode _ _ _ _ h⟩

/-! ## Claim C4 -/

/-- C4: a LOB reader's `Read` (when it reads at all, i.e. the reader is
not already exhausted and the buffer is non-empty) issues exactly one
native read starting at the running offset plus 1 for the requested
buffer length; a native failure with diagnostic code 1403 is turned
into end-of-stream rather than an error; any other native failure is
surfaced as an error carrying the locator, the current offset and the
requested length. -/
theorem c4_read_call_and_translation (r : DpiLobReader) (pLen : Nat)
    (resp : NativeReadResp) (hfin : r.finished = false) (hlen : 0 < pLen) :
    (dpiLobReaderRead r pLen resp).2.1 = [⟨r.lob, r.offset + 1, pLen⟩] ∧
    (∀ n, resp = .failure 1403 n →
      (dpiLobReaderRead r pLen resp).2.2 = .eof n) ∧
    (∀ code n, resp = .failure code n → code ≠ 1403 →
      (dpiLobReaderRead r pLen resp).2.2 = .err r.lob r.offset pLen code n) := by
  unfold dpiLobReaderRead
  rw [hfin]
  simp only [Bool.false_eq_true, if_false, if_neg (Nat.pos_iff_ne_zero.mp hlen)]
  refine ⟨?_, ?_, ?_⟩
  · cases resp with
    | success n => rfl
    | failure code n =>
      by_cases hc : code = 1403
      · simp [hc]
      · simp [hc]
  · intro n hresp
    subst hresp
    simp
  · intro code n hresp hc
    subst hresp
    simp [hc]

/-- Witness for C4 at a concrete input: an unfinished reader on
locator 5 at offset 10, a 3-byte buffer, and a native failure with
code 20 (not 1403). -/
theorem c4_read_call_and_translation_witness :
    ((⟨5, 10, false⟩ : DpiLobReader).finished = false ∧ 0 < 3) ∧
    ((dpiLobReaderRead ⟨5, 10, false⟩ 3 (.failure 20 0)).2.1 =
        [⟨5, 11, 3⟩] ∧
      (∀ n, (.failure 20 0 : NativeReadResp) = .failure 1403 n →
        (dpiLobReaderRead ⟨5, 10, false⟩ 3 (.failure 20 0)).2.2 = .eof n) ∧
      (∀ code n, (.failure 20 0 : NativeReadResp) = .failure code n →
        code ≠ 1403 →
        (dpiLobReaderRead ⟨5, 10, false⟩ 3 (.failure 20 0)).2.2 =
          .err 5 10 3 code n)) := by
  exact ⟨⟨rfl, by decide⟩,
    c4_read_call_and_translation ⟨5, 10, false⟩ 3 (.failure 20 0) rfl (by decide)⟩

/-! ## Claim C5 -/

/-- C5 counterexample: a successful native read of zero bytes makes
`Read` return end-of-stream WITHOUT marking the reader finished, so a
subsequent `Read` issues another native call (and here even returns
data) - refuting the claim that any end-of-stream signal permanently
exhausts the reader. -/
theorem c5_eof_not_always_permanent :
    (dpiLobReaderRead ⟨7, 0, false⟩ 4 (.success 0)).2.2 = .eof 0 ∧
    (dpiLobReaderRead (dpiLobReaderRead ⟨7, 0, false⟩ 4 (.success 0)).1 4
        (.success 4)).2.1 = [⟨7, 1, 4⟩] ∧
    (dpiLobReaderRead (dpiLobReaderRead ⟨7, 0, false⟩ 4 (.success 0)).1 4
        (.success 4)).2.2 = .ok 4 := by
  exact ⟨rfl, rfl, rfl⟩

/-- C5 (amended as the counterexample forces: only the end-of-stream
signalled by the native no-more-data diagnostic 1403 is permanent; a
zero-byte successful read returns end-of-stream without exhausting the
reader): a 1403 failure marks the reader finished, and a finished
reader returns end-of-stream on every `Read` without any native call
and stays unchanged (hence finished forever). -/
theorem c5_eof_permanent_after_1403 (r₁ r₂ : DpiLobReader) (pLen : Nat)
    (resp : NativeReadResp) (n : Nat)
    (h₁ : r₁.finished = true) (h₂ : r₂.finished = false) (hp : 0 < pLen) :
    dpiLobReaderRead r₁ pLen resp = (r₁, [], .eof 0) ∧
    ((dpiLobReaderRead r₂ pLen (.failure 1403 n)).1).finished = true := by
  constructor
  · unfold dpiLobReaderRead
    rw [h₁]
    simp
  · unfold dpiLobReaderRead
    rw [h₂]
    simp [Nat.pos_iff_ne_zero.mp hp]

/-- Witness for C5's amended theorem at concrete inputs. -/
theorem c5_eof_permanent_after_1403_witness :
    ((⟨7, 9, true⟩ : DpiLobReader).finished = true ∧
      (⟨7, 0, false⟩ : DpiLobReader).finished = false ∧ 0 < 1) ∧
    (dpiLobReaderRead ⟨7, 9, true⟩ 1 (.success 0) = (⟨7, 9, true⟩, [], .eof 0) ∧
      ((dpiLobReaderRead ⟨7, 0, false⟩ 1 (.failure 1403 0)).1).finished = true) := by
  exact ⟨⟨rfl, rfl, by decide⟩,
    c5_eof_permanent_after_1403 ⟨7, 9, true⟩ ⟨7, 0, false⟩ 1 (.success 0) 0
      rfl rfl (by decide)⟩

/-! ## Claim C6 -/

/-- C6 counterexample: a native fetch that stores zero rows but still
signals more rows makes `Next` report end-of-data WITHOUT marking the
cursor finished; the following `Next` issues another native fetch,
and when that native call fails `Next` returns an error - refuting the
claim that after any no-more-rows report every subsequent request
reports end-of-data rather than an error. -/
theorem c6_eof_then_error_possible :
    (rowsNext ⟨0, 0, false⟩ (.success 0 0 true)).2.2 = .eof ∧
    (rowsNext (rowsNext ⟨0, 0, false⟩ (.success 0 0 true)).1 (.failure 1013)).2.1 = true ∧
    (rowsNext (rowsNext ⟨0, 0, false⟩ (.success 0 0 true)).1 (.failure 1013)).2.2 =
      .err 1013 := by
  exact ⟨rfl, rfl, rfl⟩

/-- C6 (amended as the counterexample forces: the permanence holds for
the exhausted state the code actually records - a zero-row fetch with
the native layer also signalling no more data sets `finished`; a
zero-row fetch that still signals more rows reports end-of-data
without entering that state): a zero-row fetch with no more rows marks
the cursor finished, and a finished cursor returns end-of-data on
every `Next`, without a native fetch call and unchanged (so it stays
finished forever and never errors). -/
theorem c6_finished_cursor_stays_eof (r₁ r₂ : RowsState) (resp : FetchResp)
    (bri : Nat) (h₁ : r₁.finished = true) (h₂ : r₂.finished = false)
    (h₂f : r₂.fetched = 0) :
    rowsNext r₁ resp = (r₁, false, .eof) ∧
    (rowsNext r₂ (.success bri 0 false)).2.2 = .eof ∧
    ((rowsNext r₂ (.success bri 0 false)).1).finished = true := by
  refine ⟨?_, ?_, ?_⟩
  · unfold rowsNext
    rw [h₁]
    simp
  · unfold rowsNext
    rw [h₂, h₂f]
    simp
  · unfold rowsNext
    rw [h₂, h₂f]
    simp

/-- Witness for C6's amended theorem at concrete inputs. -/
theorem c6_finished_cursor_stays_eof_witness :
    ((⟨3, 0, true⟩ : RowsState).finished = true ∧
      (⟨0, 0, false⟩ : RowsState).finished = false ∧
      (⟨0, 0, false⟩ : RowsState).fetched = 0) ∧
    (rowsNext ⟨3, 0, true⟩ (.failure 55) = (⟨3, 0, true⟩, false, .eof) ∧
      (rowsNext ⟨0, 0, false⟩ (.success 2 0 false)).2.2 = .eof ∧
      ((rowsNext ⟨0, 0, false⟩ (.success 2 0 false)).1).finished = true) := by
  exact ⟨⟨rfl, rfl, rfl⟩,
    c6_finished_cursor_stays_eof ⟨3, 0, true⟩ ⟨0, 0, false⟩ (.failure 55) 2
      rfl rfl rfl⟩

/-! ## Claim C7 -/

/-- C7 counterexample: when the resource-open call fails, `Write`
surfaces the native error but does NOT discard the locator reference
(`dpiLob` stays set), and a later `Close` is not a no-op - it flushes
and closes the still-held locator - refuting the open-failure half of
the claim. -/
theorem c7_open_failure_keeps_locator :
    (dpiLobWriterWrite ⟨some 7, 0, false⟩ 5 ⟨false, 3127, true, 0, 0⟩).2.2 =
      .openErr (some 7) 3127 ∧
    (dpiLobWriterWrite ⟨some 7, 0, false⟩ 5 ⟨false, 3127, true, 0, 0⟩).1.lob =
      some 7 ∧
    (dpiLobWriterClose
        (dpiLobWriterWrite ⟨some 7, 0, false⟩ 5 ⟨false, 3127, true, 0, 0⟩).1
        true 0).2.1 =
      [.flushBuffer (some 7), .closeResource (some 7)] := by
  exact ⟨rfl, rfl, rfl⟩

/-- C7 (amended as the counterexample forces: the discard applies to a
failed native write - the writer then drops its locator reference,
closes the resource, surfaces the error, and a later `Close` is a
no-op; a failed resource-open only propagates the native error, the
locator reference being retained with the writer otherwise
untouched). -/
theorem c7_write_failure_discards_locator (w₁ w₂ : DpiLobWriter) (pLen : Nat)
    (env₁ env₂ : WriteEnv) (cOk : Bool) (cCode : Int)
    (h₁ : w₁.opened = true) (h₂ : env₁.writeOk = false)
    (h₃ : w₂.opened = false) (h₄ : env₂.openOk = false) :
    (dpiLobWriterWrite w₁ pLen env₁).1.lob = none ∧
    (dpiLobWriterWrite w₁ pLen env₁).2.2 =
      .writeErr w₁.lob w₁.offset pLen env₁.writeCode ∧
    dpiLobWriterClose ((dpiLobWriterWrite w₁ pLen env₁).1) cOk cCode =
      ((dpiLobWriterWrite w₁ pLen env₁).1, [], .ok) ∧
    (dpiLobWriterWrite w₂ pLen env₂).2.2 = .openErr w₂.lob env₂.openCode ∧
    (dpiLobWriterWrite w₂ pLen env₂).1 = w₂ := by
  have hw₁ : dpiLobWriterWrite w₁ pLen env₁ =
      ({ w₁ with lob := none },
       [.writeBytes w₁.lob (w₁.offset + 1) pLen, .closeResource w₁.lob],
       .writeErr w₁.lob w₁.offset pLen env₁.writeCode) := by
    unfold dpiLobWriterWrite
    rw [h₁]
    rw [if_neg (by simp : ¬ (true = false))]
    unfold writeStage
    rw [h₂]
    simp [h₁]
  have hw₂ : dpiLobWriterWrite w₂ pLen env₂ =
      (w₂, [.openResource w₂.lob], .openErr w₂.lob env₂.openCode) := by
    unfold dpiLobWriterWrite
    rw [h₃, h₄]
    simp
  refine ⟨by rw [hw₁], by rw [hw₁], ?_, by rw [hw₂], by rw [hw₂]⟩
  rw [hw₁]
  unfold dpiLobWriterClose
  simp

/-- Witness for C7's amended theorem at concrete inputs. -/
theorem c7_write_failure_discards_locator_witness :
    ((⟨some 7, 2, true⟩ : DpiLobWriter).opened = true ∧
      (⟨true, 0, false, 911, 0⟩ : WriteEnv).writeOk = false ∧
      (⟨some 8, 0, false⟩ : DpiLobWriter).opened = false ∧
      (⟨false, 3127, true, 0, 0⟩ : WriteEnv).openOk = false) ∧
    ((dpiLobWriterWrite ⟨some 7, 2, true⟩ 5 ⟨true, 0, false, 911, 0⟩).1.lob = none ∧
      (dpiLobWriterWrite ⟨some 7, 2, true⟩ 5 ⟨true, 0, false, 911, 0⟩).2.2 =
        .writeErr (some 7) 2 5 911 ∧
      dpiLobWriterClose
          ((dpiLobWriterWrite ⟨some 7, 2, true⟩ 5 ⟨true, 0, false, 911, 0⟩).1)
          true 0 =
        ((dpiLobWriterWrite ⟨some 7, 2, true⟩ 5 ⟨true, 0, false, 911, 0⟩).1,
         [], .ok) ∧
      (dpiLobWriterWrite ⟨some 8, 0, false⟩ 5 ⟨false, 3127, true, 0, 0⟩).2.2 =
        .openErr (some 8) 3127 ∧
      (dpiLobWriterWrite ⟨some 8, 0, false⟩ 5 ⟨false, 3127, true, 0, 0⟩).1 =
        ⟨some 8, 0, false⟩) := by
  exact ⟨⟨rfl, rfl, rfl, rfl⟩,
    c7_write_failure_discards_locator ⟨some 7, 2, true⟩ ⟨some 8, 0, false⟩ 5
      ⟨true, 0, false, 911, 0⟩ ⟨false, 3127, true, 0, 0⟩ true 0 rfl rfl rfl rfl⟩

/-! ## Claim C10 -/

/-- C10: when the caller's context already carries an error,
`ExecContext` and `QueryContext` return exactly that error at once -
the result is the context error (so neither a bind failure nor a
native execution is reported, none having been attempted) and the
statement's bind state is returned unchanged. -/
theorem c10_cancelled_context_short_circuits (e : Nat) (st : StmtState)
    (args : List NamedValue) :
    execContext (some e) st args = (st, .ctxError e) ∧
    queryContext (some e) st args = (st, .ctxError e) := by
  exact ⟨rfl, rfl⟩

/-! ## Claim C8 -/

theorem fold_gt_eq_fold_max {α : Type} (g : α → Nat) (xs : List α) :
    ∀ b : Nat,
      xs.foldl (fun b x => if g x > b then g x else b) b =
        xs.foldl (fun b x => max b (g x)) b := by
  induction xs with
  | nil => intro b; rfl
  | cons x rest ih =>
    intro b
    simp only [List.foldl_cons]
    have hx : (if g x > b then g x else b) = max b (g x) := by
      split_ifs with h
      · omega
      · omega
    rw [hx]
    exact ih _

/-- A successful bind loop produced one (allocation, data) pair per
argument, each the successful `processArg` of that argument at its
index. -/
theorem bindLoopAux_ok_get (plArr doMany : Bool) (dsl : Nat) :
    ∀ (args : List NamedValue) (i0 : Nat) (prs : List (Alloc × List SlotVal)),
      bindLoopAux plArr doMany dsl i0 args = .ok prs →
      prs.length = args.length ∧
      ∀ j a, args.get? j = some a →
        ∃ pr, prs.get? j = some pr ∧
          processArg plArr doMany dsl (i0 + j) a = .ok pr := by
  intro args
  induction args with
  | nil =>
    intro i0 prs h
    simp only [bindLoopAux] at h
    injection h with h
    subst h
    exact ⟨rfl, by intro j a hj; simp at hj⟩
  | cons a rest ih =>
    intro i0 prs h
    simp only [bindLoopAux] at h
    cases hp : processArg plArr doMany dsl i0 a with
    | error e =>
      rw [hp] at h
      simp at h
    | ok pr =>
      rw [hp] at h
      cases hr : bindLoopAux plArr doMany dsl (i0 + 1) rest with
      | error pe =>
        rw [hr] at h
        rcases pe with ⟨als, e⟩
        simp at h
      | ok prs' =>
        rw [hr] at h
        simp only [Except.ok.injEq] at h
        subst h
        obtain ⟨hlen, hget⟩ := ih (i0 + 1) prs' hr
        refine ⟨by simp [hlen], ?_⟩
        intro j b hj
        cases j with
        | zero =>
          simp only [List.get?_cons_zero, Option.some.injEq] at hj
          subst hj
          exact ⟨pr, rfl, by simpa using hp⟩
        | succ j' =>
          simp only [List.get?_cons_succ] at hj
          obtain ⟨pr', hpr', hproc⟩ := hget j' b hj
          refine ⟨pr', by simpa using hpr', ?_⟩
          rw [show i0 + (j' + 1) = i0 + 1 + j' from by omega]
          exact hproc

/-- C8 counterexample: a single one-character string argument whose
character is a 2-byte code point (U+00E9).  The code derives a buffer
capacity of `4 * 2 = 8` bytes (4 times the Go byte length), not
`4 * 1 = 4` (4 times the character count the claim states). -/
theorem c8_capacity_is_bytes_not_chars :
    (bindVars ⟨false, -1⟩ [⟨"", 1, .vString [233]⟩]).2 =
      .ok { doExecMany := false
            dataSliceLen := 1
            allocs := [⟨false, .varchar, .bytes, 1, 8⟩]
            writes := [[.bytes [195, 169] 2]]
            named := false
            binds := [Sum.inl 1] } ∧
    claimTextCapacity [[233]] = 4 ∧ (8 : Nat) ≠ 4 := by
  exact ⟨rfl, rfl, by decide⟩

/-- C8 (amended as the counterexample forces: the capacity is 4 times
the maximum observed Go byte length - the UTF-8 length - of the
value(s), not their character count): on every successful bind, a
string argument's buffer is allocated with capacity `4 * goStrLen`,
and a string-slice argument's with 4 times the maximum byte length
across its elements. -/
theorem c8_text_capacity (st : StmtState) (args : List NamedValue)
    (st' : StmtState) (o : BindOutcome)
    (h : bindVars st args = (st', .ok o)) :
    (∀ i a cs, args.get? i = some a → unwrapValue a.value = .vString cs →
      ∃ al, o.allocs.get? i = some al ∧ al.bufSize = 4 * goStrLen cs) ∧
    (∀ i a css, args.get? i = some a → unwrapValue a.value = .vStringSlice css →
      ∃ al, o.allocs.get? i = some al ∧
        al.bufSize = css.foldl (fun b s => max b (4 * goStrLen s)) 0) := by
  unfold bindVars at h
  split at h
  · simp at h
  · split at h
    · simp at h
    · dsimp only at h
      split at h
      · simp at h
      · rw [Prod.mk.injEq] at h
        obtain ⟨hst, hok⟩ := h
        injection hok with ho
        rename_i prs hloop
        have hallocs : o.allocs = prs.map (·.1) := by rw [← ho]
        obtain ⟨hlen, hget⟩ := bindLoopAux_ok_get _ _ _ args 0 prs hloop
        constructor
        · intro i a cs hi hv
          obtain ⟨pr, hpr, hproc⟩ := hget i a hi
          unfold processArg at hproc
          rw [hv] at hproc
          have hdisp : dispatch (0 + i) (Value.vString cs) =
              .ok ⟨.varchar, .bytes, 4 * goStrLen cs, .bytesSet⟩ := rfl
          rw [hdisp] at hproc
          refine ⟨pr.1, ?_, ?_⟩
          · rw [hallocs, List.get?_map, hpr]
            rfl
          · dsimp only at hproc
            split at hproc
            · split at hproc
              · simp at hproc
              · injection hproc with hpr'
                rw [← hpr']
            · split at hproc
              · simp at hproc
              · injection hproc with hpr'
                rw [← hpr']
        · intro i a css hi hv
          obtain ⟨pr, hpr, hproc⟩ := hget i a hi
          unfold processArg at hproc
          rw [hv] at hproc
          have hdisp : dispatch (0 + i) (Value.vStringSlice css) =
              .ok ⟨.varchar, .bytes,
                css.foldl
                  (fun b s => if 4 * goStrLen s > b then 4 * goStrLen s else b) 0,
                .bytesSet⟩ := rfl
          rw [hdisp] at hproc
          refine ⟨pr.1, ?_, ?_⟩
          · rw [hallocs, List.get?_map, hpr]
            rfl
          · rw [← fold_gt_eq_fold_max (fun s => 4 * goStrLen s) css 0]
            dsimp only at hproc
            split at hproc
            · split at hproc
              · simp at hproc
              · injection hproc with hpr'
                rw [← hpr']
            · split at hproc
              · simp at hproc
              · injection hproc with hpr'
                rw [← hpr']

/-- Witness for C8's amended theorem at a concrete input: one scalar
string argument ("ab", two single-byte characters), successfully
bound with capacity 8. -/
theorem c8_text_capacity_witness :
    bindVars ⟨false, -1⟩ [⟨"", 1, .vString [97, 98]⟩] =
      (⟨false, -1⟩,
       .ok { doExecMany := false
             dataSliceLen := 1
             allocs := [⟨false, .varchar, .bytes, 1, 8⟩]
             writes := [[.bytes [97, 98] 2]]
             named := false
             binds := [Sum.inl 1] }) ∧
    ((∀ i a cs,
        [(⟨"", 1, .vString [97, 98]⟩ : NamedValue)].get? i = some a →
        unwrapValue a.value = .vString cs →
        ∃ al, ({ doExecMany := false, dataSliceLen := 1,
                 allocs := [⟨false, .varchar, .bytes, 1, 8⟩],
                 writes := [[.bytes [97, 98] 2]], named := false,
                 binds := [Sum.inl 1] } : BindOutcome).allocs.get? i =
            some al ∧ al.bufSize = 4 * goStrLen cs) ∧
     (∀ i a css,
        [(⟨"", 1, .vString [97, 98]⟩ : NamedValue)].get? i = some a →
        unwrapValue a.value = .vStringSlice css →
        ∃ al, ({ doExecMany := false, dataSliceLen := 1,
                 allocs := [⟨false, .varchar, .bytes, 1, 8⟩],
                 writes := [[.bytes [97, 98] 2]], named := false,
                 binds := [Sum.inl 1] } : BindOutcome).allocs.get? i =
            some al ∧
          al.bufSize = css.foldl (fun b s => max b (4 * goStrLen s)) 0)) := by
  have h : bindVars ⟨false, -1⟩ [⟨"", 1, .vString [97, 98]⟩] =
      (⟨false, -1⟩,
       .ok { doExecMany := false
             dataSliceLen := 1
             allocs := [⟨false, .varchar, .bytes, 1, 8⟩]
             writes := [[.bytes [97, 98] 2]]
             named := false
             binds := [Sum.inl 1] }) := by rfl
  exact ⟨h, c8_text_capacity _ _ _ _ h⟩

/-! ## Claim C9 -/

/-- C9: evaluation of `bindVars` at the failing input - a single
`sql.Out` argument wrapping a pointer to the int 5.  Dispatch (on the
unwrapped value) correctly selects the NUMBER/INT64 arm and the buffer
is allocated, but the setter is handed the still-wrapped `a.Value`
(the source's `set(dv, 0, &data[0], a.Value)`), so it rejects it as an
unknown number instead of writing the unwrapped 5 into the slot, and
binding fails.  This exhibits the code slip the claim's text (and the
unused `value` variable the source itself computes) make evident. -/
theorem c9_out_wrapper_passed_to_setter :
    bindVars ⟨false, -1⟩ [⟨"", 1, .vOut (.vPtr (.vInt 5))⟩] =
      (⟨false, -1⟩,
       .error ([⟨false, .number, .int64, 1, 0⟩],
         .setFailed 0 0 (.unknownNumber (.vOut (.vPtr (.vInt 5)))))) ∧
    unwrapValue (.vOut (.vPtr (.vInt 5))) = .vInt 5 ∧
    dataSetNumber (.vInt 5) = .ok (.int64 5) := by
  exact ⟨rfl, rfl, rfl⟩

end Ora
